import Mathlib

/-!
Shallow embedding of `src/utils.rs`: random draws within a half-open range,
deterministic trial-division primality checking, and the prime-generation
retry loop.  Machine integers (`u64`) are embedded as `Nat`; the one place
where 64-bit overflow matters — the `x * x` multiplication inside the
`take_while` of `is_prime` — is modelled explicitly with a check against
`2 ^ 64`, an overflowing multiplication aborting evaluation (Rust checked
arithmetic panics there), represented by `none`.  The external collaborators
(the `rand` generator and the `miller_rabin` oracle) are not part of this
repository; they are modelled from the spec where a claim needs them.
-/

/-- Embedding of Rust's `Range<u64>`: the half-open interval
`[start, stop)`.  The second field is called `end` in Rust, a reserved
word in Lean. -/
structure Range where
  start : Nat
  stop : Nat
deriving DecidableEq

/-- Embedding of `const ITERATIONS: usize = 128`, the number of iterations
given to the Miller-Rabin primality test by `gen_prime`. -/
def ITERATIONS : Nat := 128

/-- Modelled from the spec: the Random Source `rand::thread_rng().gen_range`
is an external collaborator (the `rand` crate); its contract is a value
uniformly distributed over `[range.start, range.stop)` and a panic
(modelled as `none`) when the range is empty.  The generator's raw uniform
output is supplied as `sample`; the draw is `start + sample % (stop - start)`,
which maps a uniform `sample` to a uniform element of the range. -/
def gen_random (range : Range) (sample : Nat) : Option Nat :=
  if range.start < range.stop then
    some (range.start + sample % (range.stop - range.start))
  else
    none

/-- Embedding of the trial loop of `is_prime`, which is Rust's
`(1..).map(|x| 2 * x + 1).take_while(|&x| x * x <= n).any(|factor| n % factor == 0)`:
the stream of odd candidates `3, 5, 7, ...` is entered at `x = 3` and steps
by 2.  The u64 product `x * x` is computed first by `take_while`; when it
overflows (`2 ^ 64 ≤ x * x`) evaluation aborts, represented by `none`.
Otherwise `some true` means a factor was found and `some false` means the
`take_while` condition failed with no factor found. -/
def anyFactor (n : Nat) (x : Nat) : Option Bool :=
  if h : 2 ^ 64 ≤ x * x then none
  else if n < x * x then some false
  else if n % x = 0 then some true
  else anyFactor n (x + 2)
termination_by 2 ^ 32 - x
decreasing_by
  have hx : x < 2 ^ 32 := by
    by_contra hge
    push_neg at hge
    have h2 : 2 ^ 64 ≤ x * x := by
      calc (2 : Nat) ^ 64 = 2 ^ 32 * 2 ^ 32 := by norm_num
        _ ≤ x * x := Nat.mul_le_mul hge hge
    exact h h2
  omega

/-- Embedding of `is_prime` from `src/utils.rs`: deterministic trial
division.  The four `match` arms are translated in order; `none` models the
abort when `x * x` overflows u64 inside the trial loop. -/
def is_prime (n : Nat) : Option Bool :=
  if n = 0 ∨ n = 1 then some false
  else if n = 2 then some true
  else if n % 2 = 0 then some false
  else (anyFactor n 3).map fun b => !b

/-- Outcome of observing the `gen_prime` retry loop for a bounded number of
steps: it has panicked, is still running, or has returned a value. -/
inductive RunResult where
  | panic : RunResult
  | running : RunResult
  | done : Nat → RunResult
deriving DecidableEq

/-- Embedding of the retry loop of `gen_prime`: at step `i` it draws
`gen_random range (samples i)` (the `rng.gen_range(range.clone())` call,
with `samples` the stream of raw uniform values produced by the thread-local
generator), submits the attempt to the primality oracle as
`oracle attempt ITERATIONS` (the `miller_rabin::is_prime(&attempt, ITERATIONS)`
call), returns it when accepted and retries at `i + 1` otherwise.  `fuel`
bounds how many iterations are observed: `RunResult.running` means the loop
had not returned within `fuel` attempts (the Rust loop itself has no cap). -/
def gen_primeLoop (oracle : Nat → Nat → Bool) (samples : Nat → Nat)
    (range : Range) : Nat → Nat → RunResult
  | 0, _ => .running
  | fuel + 1, i =>
    match gen_random range (samples i) with
    | none => .panic
    | some attempt =>
      if oracle attempt ITERATIONS then .done attempt
      else gen_primeLoop oracle samples range fuel (i + 1)

/-- Embedding of `gen_prime` from `src/utils.rs`, observed for `fuel`
iterations of its retry loop, starting from the first draw. -/
def gen_prime (oracle : Nat → Nat → Bool) (samples : Nat → Nat)
    (range : Range) (fuel : Nat) : RunResult :=
  gen_primeLoop oracle samples range fuel 0

/-- Modelled from the spec: the external probabilistic Primality Oracle
`miller_rabin::is_prime(n, iterations)` (the `miller_rabin` crate).  Per the
spec, 0 and 1 are not prime, 2 is prime, and even numbers greater than 2 are
rejected by a cheap short-circuit without running randomized trials;
otherwise `iterations` independent randomized trials run, abstracted by the
witness-drawing function `trials` (trial `i` on candidate `n` passes when
`trials i n = true`, and the candidate is accepted when every trial passes). -/
def is_probably_prime (trials : Nat → Nat → Bool) (n : Nat)
    (iterations : Nat) : Bool :=
  if n = 0 ∨ n = 1 then false
  else if n = 2 then true
  else if n % 2 = 0 then false
  else decide (∀ i < iterations, trials i n = true)

/-- Binary modular exponentiation, used only to certify the primality of a
concrete 64-bit number: `powModAux m fuel a e = a ^ e % m` whenever
`e < 2 ^ fuel` (`powModAux_eq`). -/
def powModAux (m : Nat) : Nat → Nat → Nat → Nat
  | 0, _, _ => 1 % m
  | fuel + 1, a, e =>
    if e = 0 then 1 % m
    else
      let r := powModAux m fuel (a * a % m) (e / 2)
      if e % 2 = 1 then a % m * r % m else r

/-- Fuel-bounded mirror of `anyFactor`, used to express that the trial loop
always halts within a known number of iterations: the outer `none` means the
fuel ran out before the loop finished. -/
def anyFactorFuel (n : Nat) : Nat → Nat → Option (Option Bool)
  | 0, _ => none
  | fuel + 1, x =>
    if 2 ^ 64 ≤ x * x then some none
    else if n < x * x then some (some false)
    else if n % x = 0 then some (some true)
    else anyFactorFuel n fuel (x + 2)

theorem powModAux_eq (m : Nat) :
    ∀ fuel a e, e < 2 ^ fuel → powModAux m fuel a e = a ^ e % m := by
  intro fuel
  induction fuel with
  | zero =>
    intro a e he
    interval_cases e
    simp [powModAux]
  | succ fuel ih =>
    intro a e he
    rw [powModAux]
    by_cases he0 : e = 0
    · simp [he0]
    · have hdiv : e / 2 < 2 ^ fuel := by
        rw [pow_succ] at he
        omega
      have hr : powModAux m fuel (a * a % m) (e / 2) = (a * a) ^ (e / 2) % m := by
        rw [ih (a * a % m) (e / 2) hdiv, ← Nat.pow_mod]
      have hsq : (a * a) ^ (e / 2) = a ^ (2 * (e / 2)) := by
        rw [two_mul, pow_add, ← mul_pow]
      simp only [he0, if_false, hr, hsq]
      by_cases hpar : e % 2 = 1
      · have he2 : e = 2 * (e / 2) + 1 := by omega
        simp only [hpar, if_true]
        conv_rhs => rw [he2]
        rw [pow_succ]
        rw [Nat.mul_mod, Nat.mul_comm (a ^ (2 * (e / 2))) a, Nat.mul_mod a]
        simp [Nat.mod_mod_of_dvd]
      · have he2 : e = 2 * (e / 2) := by omega
        simp only [hpar, if_false]
        conv_rhs => rw [he2]

theorem goldilocks_pow_eq (e c : Nat) (he : e < 2 ^ 64)
    (hc : c < 18446744069414584321)
    (h : powModAux 18446744069414584321 64 7 e = c) :
    (7 : ZMod 18446744069414584321) ^ e = (c : ZMod 18446744069414584321) := by
  have h1 : 7 ^ e % 18446744069414584321 = c % 18446744069414584321 := by
    rw [← powModAux_eq 18446744069414584321 64 7 e he, h, Nat.mod_eq_of_lt hc]
  have h2 : ((7 ^ e : Nat) : ZMod 18446744069414584321)
      = ((c : Nat) : ZMod 18446744069414584321) :=
    (ZMod.natCast_eq_natCast_iff _ _ _).mpr h1
  rw [Nat.cast_pow] at h2
  norm_num at h2
  exact h2

theorem goldilocks_pow_ne_one (e c : Nat) (he : e < 2 ^ 64)
    (hc : c < 18446744069414584321) (hc1 : c ≠ 1)
    (h : powModAux 18446744069414584321 64 7 e = c) :
    (7 : ZMod 18446744069414584321) ^ e ≠ 1 := by
  rw [goldilocks_pow_eq e c he hc h]
  intro h1
  have h2 : ((c : Nat) : ZMod 18446744069414584321)
      = ((1 : Nat) : ZMod 18446744069414584321) := by
    rw [Nat.cast_one]
    exact h1
  have h3 := (ZMod.natCast_eq_natCast_iff _ _ _).mp h2
  unfold Nat.ModEq at h3
  rw [Nat.mod_eq_of_lt hc, Nat.mod_eq_of_lt (by norm_num)] at h3
  exact hc1 h3

theorem goldilocks_prime : Nat.Prime 18446744069414584321 := by
  have hp1 : (18446744069414584321 : Nat) - 1 = 18446744069414584320 := by norm_num
  apply lucas_primality 18446744069414584321 7
  · rw [hp1]
    rw [goldilocks_pow_eq 18446744069414584320 1 (by norm_num) (by norm_num) (by decide)]
    norm_num
  · intro q hq hqd
    rw [hp1] at hqd ⊢
    have hfact : (18446744069414584320 : Nat)
        = 2 ^ 32 * (3 * (5 * (17 * (257 * 65537)))) := by norm_num
    rw [hfact] at hqd
    rcases (Nat.Prime.dvd_mul hq).mp hqd with h | h
    · have hq2 : q = 2 :=
        (Nat.prime_dvd_prime_iff_eq hq Nat.prime_two).mp (hq.dvd_of_dvd_pow h)
      subst hq2
      rw [show (18446744069414584320 : Nat) / 2 = 9223372034707292160 by norm_num]
      exact goldilocks_pow_ne_one 9223372034707292160 18446744069414584320
        (by norm_num) (by norm_num) (by norm_num) (by decide)
    rcases (Nat.Prime.dvd_mul hq).mp h with h | h
    · have hq3 : q = 3 :=
        (Nat.prime_dvd_prime_iff_eq hq (by norm_num)).mp h
      subst hq3
      rw [show (18446744069414584320 : Nat) / 3 = 6148914689804861440 by norm_num]
      exact goldilocks_pow_ne_one 6148914689804861440 18446744065119617025
        (by norm_num) (by norm_num) (by norm_num) (by decide)
    rcases (Nat.Prime.dvd_mul hq).mp h with h | h
    · have hq5 : q = 5 :=
        (Nat.prime_dvd_prime_iff_eq hq (by norm_num)).mp h
      subst hq5
      rw [show (18446744069414584320 : Nat) / 5 = 3689348813882916864 by norm_num]
      exact goldilocks_pow_ne_one 3689348813882916864 1373043270956696022
        (by norm_num) (by norm_num) (by norm_num) (by decide)
    rcases (Nat.Prime.dvd_mul hq).mp h with h | h
    · have hq17 : q = 17 :=
        (Nat.prime_dvd_prime_iff_eq hq (by norm_num)).mp h
      subst hq17
      rw [show (18446744069414584320 : Nat) / 17 = 1085102592318504960 by norm_num]
      exact goldilocks_pow_ne_one 1085102592318504960 16301593560560007290
        (by norm_num) (by norm_num) (by norm_num) (by decide)
    rcases (Nat.Prime.dvd_mul hq).mp h with h | h
    · have hq257 : q = 257 :=
        (Nat.prime_dvd_prime_iff_eq hq (by norm_num)).mp h
      subst hq257
      rw [show (18446744069414584320 : Nat) / 257 = 71777214277877760 by norm_num]
      exact goldilocks_pow_ne_one 71777214277877760 995085315851368103
        (by norm_num) (by norm_num) (by norm_num) (by decide)
    · have hq65537 : q = 65537 :=
        (Nat.prime_dvd_prime_iff_eq hq (by norm_num)).mp h
      subst hq65537
      rw [show (18446744069414584320 : Nat) / 65537 = 281470681743360 by norm_num]
      exact goldilocks_pow_ne_one 281470681743360 8478886009461009681
        (by norm_num) (by norm_num) (by norm_num) (by decide)
theorem anyFactor_unfold (n x : Nat) : anyFactor n x =
    if 2 ^ 64 ≤ x * x then none
    else if n < x * x then some false
    else if n % x = 0 then some true
    else anyFactor n (x + 2) := by
  rw [anyFactor, dite_eq_ite]

theorem anyFactorFuel_succ (n fuel x : Nat) : anyFactorFuel n (fuel + 1) x =
    if 2 ^ 64 ≤ x * x then some none
    else if n < x * x then some (some false)
    else if n % x = 0 then some (some true)
    else anyFactorFuel n fuel (x + 2) := rfl

theorem anyFactorFuel_eq (n : Nat) :
    ∀ fuel x, 2 ^ 32 ≤ 2 * fuel + x →
    anyFactorFuel n (fuel + 1) x = some (anyFactor n x) := by
  intro fuel
  induction fuel with
  | zero =>
    intro x hx
    have hx32 : 2 ^ 32 ≤ x := by omega
    have hover : 2 ^ 64 ≤ x * x := by
      calc (2 : Nat) ^ 64 = 2 ^ 32 * 2 ^ 32 := by norm_num
        _ ≤ x * x := Nat.mul_le_mul hx32 hx32
    rw [anyFactorFuel_succ, anyFactor_unfold, if_pos hover, if_pos hover]
  | succ fuel ih =>
    intro x hx
    rw [anyFactorFuel_succ, anyFactor_unfold]
    by_cases h1 : 2 ^ 64 ≤ x * x
    · rw [if_pos h1, if_pos h1]
    rw [if_neg h1, if_neg h1]
    by_cases h2 : n < x * x
    · rw [if_pos h2, if_pos h2]
    rw [if_neg h2, if_neg h2]
    by_cases h3 : n % x = 0
    · rw [if_pos h3, if_pos h3]
    rw [if_neg h3, if_neg h3]
    exact ih (x + 2) (by omega)

theorem anyFactor_of_fuel (n : Nat) (r : Option Bool)
    (h : anyFactorFuel n (2 ^ 31 + 1) 3 = some r) : anyFactor n 3 = r := by
  have h2 := anyFactorFuel_eq n (2 ^ 31) 3 (by norm_num)
  rw [h2] at h
  exact Option.some.inj h

theorem anyFactor_goldilocks_aux :
    ∀ k x, 3 ≤ x → x + 2 * k = 4294967297 →
    anyFactor 18446744069414584321 x = none := by
  intro k
  induction k with
  | zero =>
    intro x h3 hx
    have hx1 : x = 4294967297 := by omega
    subst hx1
    rw [anyFactor_unfold, if_pos (by norm_num)]
  | succ k ih =>
    intro x h3 hx
    have hle : x ≤ 4294967295 := by omega
    have h1 : ¬ 2 ^ 64 ≤ x * x := by
      push_neg
      calc x * x ≤ 4294967295 * 4294967295 := Nat.mul_le_mul hle hle
        _ < 2 ^ 64 := by norm_num
    have h2 : ¬ 18446744069414584321 < x * x := by
      push_neg
      calc x * x ≤ 4294967295 * 4294967295 := Nat.mul_le_mul hle hle
        _ ≤ 18446744069414584321 := by norm_num
    have h4 : ¬ 18446744069414584321 % x = 0 := by
      intro h0
      have hdvd : x ∣ 18446744069414584321 := Nat.dvd_of_mod_eq_zero h0
      rcases goldilocks_prime.eq_one_or_self_of_dvd x hdvd with h | h <;> omega
    rw [anyFactor_unfold, if_neg h1, if_neg h2, if_neg h4]
    exact ih (x + 2) (by omega) (by omega)

theorem anyFactor_goldilocks : anyFactor 18446744069414584321 3 = none :=
  anyFactor_goldilocks_aux 2147483647 3 (by norm_num) (by norm_num)

theorem is_prime_odd_eq (n : Nat) (h1 : 2 < n) (h2 : n % 2 = 1) :
    is_prime n = (anyFactor n 3).map fun b => !b := by
  have ha : ¬ (n = 0 ∨ n = 1) := by omega
  have hb : n ≠ 2 := by omega
  have hc : ¬ n % 2 = 0 := by omega
  rw [is_prime, if_neg ha, if_neg hb, if_neg hc]

theorem is_prime_goldilocks : is_prime 18446744069414584321 = none := by
  rw [is_prime_odd_eq 18446744069414584321 (by norm_num) (by norm_num),
    anyFactor_goldilocks]
  rfl

theorem gen_random_mem {range : Range} {s v : Nat}
    (h : gen_random range s = some v) :
    range.start ≤ v ∧ v < range.stop := by
  by_cases hlt : range.start < range.stop
  · rw [gen_random, if_pos hlt] at h
    have hm : s % (range.stop - range.start) < range.stop - range.start :=
      Nat.mod_lt _ (by omega)
    cases h
    omega
  · rw [gen_random, if_neg hlt] at h
    cases h

theorem gen_primeLoop_none {oracle : Nat → Nat → Bool} {samples : Nat → Nat}
    {range : Range} {fuel i : Nat}
    (h : gen_random range (samples i) = none) :
    gen_primeLoop oracle samples range (fuel + 1) i = .panic := by
  simp only [gen_primeLoop, h]

theorem gen_primeLoop_some {oracle : Nat → Nat → Bool} {samples : Nat → Nat}
    {range : Range} {fuel i a : Nat}
    (h : gen_random range (samples i) = some a) :
    gen_primeLoop oracle samples range (fuel + 1) i =
      if oracle a ITERATIONS then .done a
      else gen_primeLoop oracle samples range fuel (i + 1) := by
  simp only [gen_primeLoop, h]

theorem gen_primeLoop_done {oracle : Nat → Nat → Bool} {samples : Nat → Nat}
    {range : Range} {v : Nat} :
    ∀ fuel i, gen_primeLoop oracle samples range fuel i = .done v →
      range.start ≤ v ∧ v < range.stop ∧ oracle v ITERATIONS = true := by
  intro fuel
  induction fuel with
  | zero =>
    intro i h
    exact absurd h (by simp [gen_primeLoop])
  | succ fuel ih =>
    intro i h
    cases hdr : gen_random range (samples i) with
    | none =>
      rw [gen_primeLoop_none hdr] at h
      cases h
    | some a =>
      rw [gen_primeLoop_some hdr] at h
      by_cases hacc : oracle a ITERATIONS = true
      · rw [if_pos hacc] at h
        cases h
        obtain ⟨h1, h2⟩ := gen_random_mem hdr
        exact ⟨h1, h2, hacc⟩
      · rw [if_neg hacc] at h
        exact ih (i + 1) h

theorem gen_primeLoop_reaches {oracle : Nat → Nat → Bool} {samples : Nat → Nat}
    {range : Range} (hv : range.start < range.stop) :
    ∀ k i, (∃ a, gen_random range (samples (i + k)) = some a ∧
        oracle a ITERATIONS = true) →
      ∃ v, gen_primeLoop oracle samples range (k + 1) i = .done v := by
  intro k
  induction k with
  | zero =>
    intro i h
    obtain ⟨a, hdr, hacc⟩ := h
    rw [Nat.add_zero] at hdr
    rw [gen_primeLoop_some hdr, if_pos hacc]
    exact ⟨a, rfl⟩
  | succ k ih =>
    intro i h
    obtain ⟨a, hdr, hacc⟩ := h
    have hdr0 : gen_random range (samples i)
        = some (range.start + samples i % (range.stop - range.start)) := by
      simp only [gen_random, if_pos hv]
    rw [gen_primeLoop_some hdr0]
    by_cases hacc0 :
        oracle (range.start + samples i % (range.stop - range.start)) ITERATIONS = true
    · rw [if_pos hacc0]
      exact ⟨_, rfl⟩
    · rw [if_neg hacc0]
      apply ih (i + 1)
      refine ⟨a, ?_, hacc⟩
      rw [show i + 1 + k = i + (k + 1) by omega]
      exact hdr

theorem gen_primeLoop_rejected {oracle : Nat → Nat → Bool} {samples : Nat → Nat}
    {range : Range} (hv : range.start < range.stop)
    (hrej : ∀ j a, gen_random range (samples j) = some a →
      oracle a ITERATIONS = false) :
    ∀ fuel i, gen_primeLoop oracle samples range fuel i = .running := by
  intro fuel
  induction fuel with
  | zero =>
    intro i
    rfl
  | succ fuel ih =>
    intro i
    have hdr0 : gen_random range (samples i)
        = some (range.start + samples i % (range.stop - range.start)) := by
      simp only [gen_random, if_pos hv]
    rw [gen_primeLoop_some hdr0]
    have hfalse := hrej i _ hdr0
    rw [if_neg (by simp [hfalse])]
    exact ih (i + 1)

/-- C1: for every bound `[low, high)` with `low < high`, whenever
`gen_prime range` returns, the returned value `v` satisfies
`low ≤ v < high`; `gen_prime` never returns a value outside the bound.
(The in-range hypothesis on each draw is the spec contract of the external
`rand` generator; the statement holds for every bound, valid or not, since
an invalid bound panics rather than returning.) -/
theorem c1_gen_prime_in_range (oracle : Nat → Nat → Bool) (samples : Nat → Nat)
    (range : Range) (fuel v : Nat)
    (h : gen_prime oracle samples range fuel = .done v) :
    range.start ≤ v ∧ v < range.stop := by
  rw [gen_prime] at h
  have hd := gen_primeLoop_done fuel 0 h
  exact ⟨hd.1, hd.2.1⟩

theorem c1_gen_prime_in_range_witness :
    (Range.mk 5 6).start ≤ 5 ∧ 5 < (Range.mk 5 6).stop :=
  c1_gen_prime_in_range (fun n _ => n == 5) (fun _ => 0) (Range.mk 5 6) 1 5
    (by decide)

/-- C2: `gen_prime` only ever returns a candidate that the Miller-Rabin
primality oracle accepted when invoked with the fixed confidence level of
`ITERATIONS = 128`; the constant is internal (the loop always passes
`ITERATIONS` to the oracle; no caller-supplied iteration count exists in
`gen_prime`'s signature). -/
theorem c2_oracle_accepted (oracle : Nat → Nat → Bool) (samples : Nat → Nat)
    (range : Range) (fuel v : Nat)
    (h : gen_prime oracle samples range fuel = .done v) :
    oracle v ITERATIONS = true ∧ ITERATIONS = 128 := by
  rw [gen_prime] at h
  exact ⟨(gen_primeLoop_done fuel 0 h).2.2, rfl⟩

theorem c2_oracle_accepted_witness :
    (fun n it => n == 7 && it == 128) 7 ITERATIONS = true ∧ ITERATIONS = 128 :=
  c2_oracle_accepted (fun n it => n == 7 && it == 128) (fun _ => 0)
    (Range.mk 7 8) 1 7 (by decide)

/-- C3: for every bound `[low, high)` with `low ≥ high` (empty or inverted),
both `gen_random` and `gen_prime` fail immediately with the invalid-range
panic rather than returning any integer: every call to `gen_random` panics,
and `gen_prime` panics on its very first draw, whatever the oracle and
however long the loop would be allowed to run. -/
theorem c3_invalid_range_fails (range : Range) (h : range.stop ≤ range.start) :
    (∀ sample, gen_random range sample = none) ∧
    (∀ oracle samples fuel,
      gen_prime oracle samples range (fuel + 1) = .panic) := by
  constructor
  · intro s
    rw [gen_random, if_neg (by omega)]
  · intro oracle samples fuel
    have hnone : gen_random range (samples 0) = none := by
      rw [gen_random, if_neg (by omega)]
    rw [gen_prime]
    exact gen_primeLoop_none hnone

theorem c3_invalid_range_fails_witness :
    gen_random (Range.mk 5 5) 3 = none ∧
    gen_prime (fun _ _ => true) (fun _ => 0) (Range.mk 10 3) 1 = .panic :=
  ⟨(c3_invalid_range_fails (Range.mk 5 5) (by decide)).1 3,
    (c3_invalid_range_fails (Range.mk 10 3) (by decide)).2 (fun _ _ => true)
      (fun _ => 0) 0⟩

/-- C5: for every bound `[low, high)` with `low < high`, `gen_random`
returns a value `v` with `low ≤ v < high`, and the draw is uniform: every
value of the bound is produced by exactly one raw sample in the canonical
window `[0, high - low)`, so a uniformly distributed raw sample yields a
uniformly distributed draw.  (The draw map is the spec contract of the
external `rand` generator.) -/
theorem c5_gen_random_uniform (range : Range) (h : range.start < range.stop) :
    (∀ sample, ∃ v, gen_random range sample = some v ∧
      range.start ≤ v ∧ v < range.stop) ∧
    (∀ v, range.start ≤ v → v < range.stop →
      ∃! sample, sample < range.stop - range.start ∧
        gen_random range sample = some v) := by
  constructor
  · intro s
    refine ⟨range.start + s % (range.stop - range.start), ?_, ?_, ?_⟩
    · rw [gen_random, if_pos h]
    · omega
    · have hm : s % (range.stop - range.start) < range.stop - range.start :=
        Nat.mod_lt _ (by omega)
      omega
  · intro v hv1 hv2
    refine ⟨v - range.start, ⟨by omega, ?_⟩, ?_⟩
    · rw [gen_random, if_pos h]
      congr 1
      rw [Nat.mod_eq_of_lt (by omega)]
      omega
    · rintro s ⟨hs1, hs2⟩
      rw [gen_random, if_pos h, Option.some.injEq] at hs2
      rw [Nat.mod_eq_of_lt hs1] at hs2
      omega

theorem c5_gen_random_uniform_witness :
    (∃ v, gen_random (Range.mk 3 7) 9 = some v ∧ 3 ≤ v ∧ v < 7) ∧
    (∃! sample, sample < 4 ∧ gen_random (Range.mk 3 7) sample = some 5) :=
  ⟨(c5_gen_random_uniform (Range.mk 3 7) (by decide)).1 9,
    (c5_gen_random_uniform (Range.mk 3 7) (by decide)).2 5 (by decide) (by decide)⟩

theorem gen_primeLoop_congr {oracle : Nat → Nat → Bool}
    {samples samples2 : Nat → Nat} {range : Range} :
    ∀ fuel i, (∀ j, i ≤ j → j < i + fuel → samples j = samples2 j) →
      gen_primeLoop oracle samples range fuel i =
        gen_primeLoop oracle samples2 range fuel i := by
  intro fuel
  induction fuel with
  | zero =>
    intro i _
    rfl
  | succ fuel ih =>
    intro i hagree
    have hs : samples i = samples2 i := hagree i (Nat.le_refl i) (by omega)
    cases hdr : gen_random range (samples i) with
    | none =>
      have hdr2 : gen_random range (samples2 i) = none := by
        rw [← hs]
        exact hdr
      rw [gen_primeLoop_none hdr, gen_primeLoop_none hdr2]
    | some a =>
      have hdr2 : gen_random range (samples2 i) = some a := by
        rw [← hs]
        exact hdr
      rw [gen_primeLoop_some hdr, gen_primeLoop_some hdr2]
      by_cases hacc : oracle a ITERATIONS = true
      · rw [if_pos hacc, if_pos hacc]
      · rw [if_neg hacc, if_neg hacc]
        exact ih (i + 1) fun j hj1 hj2 => hagree j (by omega) (by omega)

/-- C6: for `n = 0` and `n = 1` both the deterministic checker and the
probabilistic oracle return false; for `n = 2` both return true; for every
even `n > 2` both return false.  The deterministic checker rejects even
`n > 2` in its guard arm before the trial-division arm, and the modelled
oracle's result on even `n > 2` is `false` for every choice of randomized
trials, which is the formal content of "without running randomized trials". -/
theorem c6_edge_cases (trials : Nat → Nat → Bool) (iterations : Nat) :
    is_prime 0 = some false ∧ is_prime 1 = some false ∧
    is_prime 2 = some true ∧
    is_probably_prime trials 0 iterations = false ∧
    is_probably_prime trials 1 iterations = false ∧
    is_probably_prime trials 2 iterations = true ∧
    (∀ n, 2 < n → n % 2 = 0 → is_prime n = some false ∧
      is_probably_prime trials n iterations = false) := by
  refine ⟨by rw [is_prime]; norm_num, by rw [is_prime]; norm_num,
    by rw [is_prime]; norm_num, by rw [is_probably_prime]; norm_num,
    by rw [is_probably_prime]; norm_num, by rw [is_probably_prime]; norm_num,
    ?_⟩
  intro n h1 h2
  constructor
  · rw [is_prime, if_neg (by omega), if_neg (by omega), if_pos h2]
  · rw [is_probably_prime, if_neg (by omega), if_neg (by omega), if_pos h2]

theorem c6_edge_cases_witness :
    is_prime 4 = some false ∧
    is_probably_prime (fun _ _ => true) 4 0 = false :=
  (c6_edge_cases (fun _ _ => true) 0).2.2.2.2.2.2 4 (by norm_num) (by norm_num)

/-- C7: `gen_prime` follows exactly the draw-test-return retry loop: an
accepted candidate is returned immediately; a rejected candidate causes one
fresh draw at the next sample index; with every candidate rejected the loop
is still running after any number of iterations (no iteration cap, no
default return); and the loop's behaviour from step `i` for `fuel` steps
depends only on the draws at indices `i, ..., i + fuel - 1`, so no state is
carried from a rejected candidate to the next attempt. -/
theorem c7_retry_loop_structure (oracle : Nat → Nat → Bool)
    (samples samples2 : Nat → Nat) (range : Range) (fuel i a : Nat) :
    (gen_random range (samples i) = some a → oracle a ITERATIONS = true →
      gen_primeLoop oracle samples range (fuel + 1) i = .done a) ∧
    (gen_random range (samples i) = some a → oracle a ITERATIONS = false →
      gen_primeLoop oracle samples range (fuel + 1) i =
        gen_primeLoop oracle samples range fuel (i + 1)) ∧
    (range.start < range.stop →
      (∀ j b, gen_random range (samples j) = some b →
        oracle b ITERATIONS = false) →
      ∀ f, gen_prime oracle samples range f = .running) ∧
    ((∀ j, i ≤ j → j < i + fuel → samples j = samples2 j) →
      gen_primeLoop oracle samples range fuel i =
        gen_primeLoop oracle samples2 range fuel i) := by
  refine ⟨?_, ?_, ?_, ?_⟩
  · intro hdr hacc
    rw [gen_primeLoop_some hdr, if_pos hacc]
  · intro hdr hrej
    rw [gen_primeLoop_some hdr, if_neg (by simp [hrej])]
  · intro hv hrej f
    rw [gen_prime]
    exact gen_primeLoop_rejected hv hrej f 0
  · exact gen_primeLoop_congr fuel i

theorem c7_retry_loop_structure_witness :
    gen_primeLoop (fun n _ => n == 7) (fun _ => 0) (Range.mk 7 8) 1 0
      = .done 7 ∧
    gen_primeLoop (fun _ _ => false) (fun _ => 0) (Range.mk 7 8) 1 0 =
      gen_primeLoop (fun _ _ => false) (fun _ => 0) (Range.mk 7 8) 0 1 ∧
    gen_prime (fun _ _ => false) (fun _ => 0) (Range.mk 7 8) 5 = .running ∧
    gen_primeLoop (fun n _ => n == 7) (fun _ => 0) (Range.mk 7 8) 2 0 =
      gen_primeLoop (fun n _ => n == 7) (fun j => if j < 2 then 0 else 99)
        (Range.mk 7 8) 2 0 :=
  ⟨(c7_retry_loop_structure (fun n _ => n == 7) (fun _ => 0) (fun _ => 0)
      (Range.mk 7 8) 0 0 7).1 (by decide) (by decide),
    (c7_retry_loop_structure (fun _ _ => false) (fun _ => 0) (fun _ => 0)
      (Range.mk 7 8) 0 0 7).2.1 (by decide) (by decide),
    (c7_retry_loop_structure (fun _ _ => false) (fun _ => 0) (fun _ => 0)
      (Range.mk 7 8) 0 0 0).2.2.1 (by decide)
      (fun _ _ _ => rfl) 5,
    (c7_retry_loop_structure (fun n _ => n == 7) (fun _ => 0)
      (fun j => if j < 2 then 0 else 99) (Range.mk 7 8) 2 0 0).2.2.2
      (fun j _ hj2 => (if_pos (by omega : j < 2)).symm)⟩

/-- C8: for every bound `[low, high)` with `low < high` that contains a
prime which the sample stream eventually draws, `gen_prime` terminates and
returns a value of the bound accepted by the oracle at 128 iterations; for a
bound containing zero primes (with the oracle idealized per the spec to
accept exactly the primes), the loop is still running after every number of
iterations, i.e. `gen_prime` never terminates. -/
theorem c8_termination (oracle : Nat → Nat → Bool) (samples : Nat → Nat)
    (range : Range) (q : Nat) :
    (range.start < range.stop → Nat.Prime q →
      range.start ≤ q → q < range.stop →
      (∀ n, oracle n ITERATIONS = true ↔ Nat.Prime n) →
      (∃ i, gen_random range (samples i) = some q) →
      ∃ fuel v, gen_prime oracle samples range fuel = .done v ∧
        range.start ≤ v ∧ v < range.stop ∧ oracle v ITERATIONS = true) ∧
    (range.start < range.stop →
      (∀ n, oracle n ITERATIONS = true ↔ Nat.Prime n) →
      (∀ v, range.start ≤ v → v < range.stop → ¬ Nat.Prime v) →
      ∀ fuel, gen_prime oracle samples range fuel = .running) := by
  constructor
  · intro hv hq _ _ horacle hhit
    obtain ⟨i, hdr⟩ := hhit
    have hreach := gen_primeLoop_reaches hv i 0
      ⟨q, by rw [Nat.zero_add]; exact hdr, (horacle q).mpr hq⟩
    obtain ⟨v, hdone⟩ := hreach
    have hd := gen_primeLoop_done (i + 1) 0 hdone
    exact ⟨i + 1, v, by rw [gen_prime]; exact hdone, hd.1, hd.2.1, hd.2.2⟩
  · intro hv horacle hnoprime fuel
    rw [gen_prime]
    apply gen_primeLoop_rejected hv
    intro j a hdr
    obtain ⟨h1, h2⟩ := gen_random_mem hdr
    have hnp := hnoprime a h1 h2
    cases hb : oracle a ITERATIONS
    · rfl
    · exact absurd ((horacle a).mp hb) hnp

theorem c8_termination_witness :
    (∃ fuel v,
      gen_prime (fun n _ => decide (Nat.Prime n)) (fun _ => 0)
        (Range.mk 5 6) fuel = .done v ∧
      (Range.mk 5 6).start ≤ v ∧ v < (Range.mk 5 6).stop ∧
      (fun n _ => decide (Nat.Prime n)) v ITERATIONS = true) ∧
    gen_prime (fun n _ => decide (Nat.Prime n)) (fun _ => 0)
      (Range.mk 8 9) 3 = .running :=
  ⟨(c8_termination (fun n _ => decide (Nat.Prime n)) (fun _ => 0)
      (Range.mk 5 6) 5).1 (by decide) (by norm_num) (by decide) (by decide)
      (fun n => ⟨of_decide_eq_true, fun hp => decide_eq_true hp⟩)
      ⟨0, by decide⟩,
    (c8_termination (fun n _ => decide (Nat.Prime n)) (fun _ => 0)
      (Range.mk 8 9) 0).2 (by decide)
      (fun n => ⟨of_decide_eq_true, fun hp => decide_eq_true hp⟩)
      (fun v h1 h2 => by
        have h1' : 8 ≤ v := h1
        have h2' : v < 9 := h2
        have hv8 : v = 8 := by omega
        rw [hv8]
        norm_num) 3⟩

theorem is_prime_true_of_loop_false (n : Nat) (h1 : 2 < n) (h2 : n % 2 = 1)
    (h : anyFactorFuel n (2 ^ 31 + 1) 3 = some (some false)) :
    is_prime n = some true := by
  rw [is_prime_odd_eq n h1 h2, anyFactor_of_fuel n (some false) h]
  rfl

theorem anyFactor_no_overflow (n : Nat) (hn : n < 18446744065119617025) :
    ∀ k x, 3 ≤ x → x + 2 * k = 4294967295 → anyFactor n x ≠ none := by
  intro k
  induction k with
  | zero =>
    intro x h3 hx
    have hx1 : x = 4294967295 := by omega
    subst hx1
    rw [anyFactor_unfold, if_neg (by norm_num)]
    have hlt : n < 4294967295 * 4294967295 := by
      rw [show (4294967295 * 4294967295 : Nat) = 18446744065119617025 from by
        norm_num]
      exact hn
    rw [if_pos hlt]
    simp
  | succ k ih =>
    intro x h3 hx
    have hle : x ≤ 4294967293 := by omega
    rw [anyFactor_unfold]
    have h1 : ¬ 2 ^ 64 ≤ x * x := by
      push_neg
      calc x * x ≤ 4294967293 * 4294967293 := Nat.mul_le_mul hle hle
        _ < 2 ^ 64 := by norm_num
    rw [if_neg h1]
    by_cases h2 : n < x * x
    · rw [if_pos h2]
      simp
    rw [if_neg h2]
    by_cases hmod : n % x = 0
    · rw [if_pos hmod]
      simp
    rw [if_neg hmod]
    exact ih (x + 2) (by omega) (by omega)

/-- C4 (code bug): the spec states the trial-division checker is correct
and exact for every u64 input, and indeed it returns true on each element
of {2, 3, 5, 7, 11, 13, 17, 19}; but at the prime input 2^64 - 2^32 + 1 the
`x * x` product overflows u64 before the `take_while` condition can fail,
so the checker aborts (panics under checked arithmetic) instead of
returning true: the code is not exact on all of u64. -/
theorem c4_is_prime_exactness_bug :
    Nat.Prime 18446744069414584321 ∧
    is_prime 18446744069414584321 = none ∧
    is_prime 2 = some true ∧
    is_prime 3 = some true ∧
    is_prime 5 = some true ∧
    is_prime 7 = some true ∧
    is_prime 11 = some true ∧
    is_prime 13 = some true ∧
    is_prime 17 = some true ∧
    is_prime 19 = some true :=
  ⟨goldilocks_prime, is_prime_goldilocks,
    by rw [is_prime]; norm_num,
    is_prime_true_of_loop_false 3 (by norm_num) (by norm_num) (by decide),
    is_prime_true_of_loop_false 5 (by norm_num) (by norm_num) (by decide),
    is_prime_true_of_loop_false 7 (by norm_num) (by norm_num) (by decide),
    is_prime_true_of_loop_false 11 (by norm_num) (by norm_num) (by decide),
    is_prime_true_of_loop_false 13 (by norm_num) (by norm_num) (by decide),
    is_prime_true_of_loop_false 17 (by norm_num) (by norm_num) (by decide),
    is_prime_true_of_loop_false 19 (by norm_num) (by norm_num) (by decide)⟩

/-- C9: there is a u64 input — the prime 2^64 - 2^32 + 1, odd and with no
odd divisor below 2^32 — on which the trial loop of `is_prime` reaches a
trial factor whose square exceeds u64::MAX, so the `x * x` multiplication
in the `take_while` condition overflows u64 arithmetic: the overflow branch
is reachable at the public interface. -/
theorem c9_overflow_reachable :
    18446744069414584321 < 2 ^ 64 ∧
    18446744069414584321 % 2 = 1 ∧
    (∀ d, d % 2 = 1 → 1 < d → d < 2 ^ 32 → ¬ d ∣ 18446744069414584321) ∧
    anyFactor 18446744069414584321 3 = none ∧
    is_prime 18446744069414584321 = none := by
  refine ⟨by norm_num, by norm_num, ?_, anyFactor_goldilocks,
    is_prime_goldilocks⟩
  intro d _ h2 h3 hdvd
  norm_num at h3
  rcases goldilocks_prime.eq_one_or_self_of_dvd d hdvd with h | h <;> omega

theorem c9_overflow_reachable_witness :
    ¬ (3 ∣ 18446744069414584321) :=
  c9_overflow_reachable.2.2.1 3 (by norm_num) (by norm_num) (by norm_num)

/-- C10 counterexample: the claim says the `take_while` condition
`x * x ≤ n` eventually fails on every input, making the chain finite with a
boolean verdict; at the u64 input 2^64 - 2^32 + 1 the loop instead aborts on
the `x * x` overflow and produces no boolean at all. -/
theorem c10_condition_not_always_fails :
    18446744069414584321 < 2 ^ 64 ∧
    is_prime 18446744069414584321 ≠ some true ∧
    is_prime 18446744069414584321 ≠ some false := by
  refine ⟨by norm_num, ?_, ?_⟩ <;> rw [is_prime_goldilocks] <;> simp

/-- C10 (amended): the trial loop of `is_prime` halts on every u64 input
within at most 2^31 + 1 examined factors — running it with that much fuel
always completes and agrees with the unbounded loop — and for every input
below (2^32 - 1)^2 the halt is a boolean verdict via the `take_while`
condition failing or a factor being found, never the overflow abort. -/
theorem c10_trial_loop_bounded (n : Nat) :
    anyFactorFuel n (2 ^ 31 + 1) 3 = some (anyFactor n 3) ∧
    (n < 18446744065119617025 → anyFactor n 3 ≠ none) := by
  constructor
  · exact anyFactorFuel_eq n (2 ^ 31) 3 (by norm_num)
  · intro hn
    exact anyFactor_no_overflow n hn 2147483646 3 (by norm_num) (by norm_num)

theorem c10_trial_loop_bounded_witness :
    anyFactorFuel 19 (2 ^ 31 + 1) 3 = some (anyFactor 19 3) ∧
    anyFactor 19 3 ≠ none :=
  ⟨(c10_trial_loop_bounded 19).1, (c10_trial_loop_bounded 19).2 (by norm_num)⟩
